import Mathlib

/-!
# The table-driven test template `TestFunction`

A shallow embedding of `.opencode/skills/go-backend-developer/assets/template.go`.

The template declares a table of test cases and runs one subtest per record:
the subtest calls the function under test on the record's `arg` and checks the
outcome with `require.Error`, `require.NoError` and `assert.Equal`.

The function under test, `Function`, is not defined by the template. It is a
parameter of the embedding. A Go function may read and write state outside its
argument, so it is taken in state-passing form over an arbitrary environment
type `σ`; a function that is a plain map from strings to results is embedded
with `pureFunction`.

The calls into `testing` and `testify` are modelled by the state they leave in
a `testing.T`: the failed flag, the failures logged through `Errorf`, and
whether the test goroutine was stopped by `FailNow`. The framework runs in its
default configuration (every subtest is run: no `-run` filter, no `-failfast`),
and the function under test returns (it does not panic or block).
-/

namespace Template

/-! ## Data model -/

/-- A Go `error` value: `none` is the `nil` error, `some msg` a non-nil error
whose `Error()` text is `msg`. -/
abbrev GoError := Option String

/-- The anonymous struct type of the table `tests` (template.go, lines 12-17). -/
structure TestCase where
  name : String
  arg : String
  want : String
  wantErr : Bool
  deriving DecidableEq, Repr

/-- The table literal `tests` (template.go, lines 12-30). -/
def tests : List TestCase :=
  [ { name := "success case", arg := "valid", want := "result", wantErr := false },
    { name := "error case", arg := "invalid", want := "", wantErr := true } ]

/-- The three assertion helpers the template calls. -/
inductive Assertion where
  | Error
  | NoError
  | Equal
  deriving DecidableEq, Repr

/-- What an assertion helper logs through `t.Errorf` when it fails. -/
inductive Failure where
  /-- Logged by `assert.Error` on a nil error: an error is expected but got nil. -/
  | errorExpected
  /-- Logged by `assert.NoError` on a non-nil error: received unexpected error. -/
  | unexpectedError (err : String)
  /-- Logged by `assert.Equal` on a mismatch: expected versus actual. -/
  | notEqual (expected actual : String)
  deriving DecidableEq, Repr

/-- The state of one `testing.T`: the name it was started under, the failed
flag, the failures logged through `Errorf` (oldest first), and the assertion
helpers that were entered (oldest first). -/
structure T where
  name : String
  failed : Bool
  output : List Failure
  entered : List Assertion
  deriving DecidableEq, Repr

/-- What lies outside the `testing.T` values: the environment the function
under test reads and writes, the arguments `Function` has been called with
(oldest first), and the subtests that have finished and been reported
(oldest first). -/
structure World (σ : Type) where
  env : σ
  calls : List String
  finished : List T

/-- The signature of the function under test, in state-passing form. -/
abbrev FunctionUnderTest (σ : Type) := String → σ → (String × GoError) × σ

/-- A function under test that is a plain map from the input string to a result
and an error: it neither reads nor writes the environment. -/
def pureFunction {σ : Type} (g : String → String × GoError) : FunctionUnderTest σ :=
  fun arg env => (g arg, env)

/-! ## `testing` and `testify` -/

/-- How a statement of a test function ends: control goes on to the next
statement, or the goroutine was stopped by `runtime.Goexit` (`t.FailNow`). -/
inductive Flow where
  | next
  | goexit
  deriving DecidableEq, Repr

/-- The state of a freshly started `testing.T`. -/
def T.fresh (name : String) : T :=
  { name := name, failed := false, output := [], entered := [] }

/-- The method `t.Errorf`: log the failure and mark the test failed. -/
def T.Errorf (t : T) (f : Failure) : T :=
  { t with failed := true, output := t.output ++ [f] }

/-- The method `t.FailNow`: mark the test failed and stop its goroutine. -/
def T.FailNow (t : T) : T × Flow :=
  ({ t with failed := true }, Flow.goexit)

/-- The helper `assert.Error(t, err)`: fails when `err` is nil. Returns the
test state and whether the assertion held. -/
def assertError (t : T) (err : GoError) : T × Bool :=
  let t := { t with entered := t.entered ++ [Assertion.Error] }
  match err with
  | none => (t.Errorf Failure.errorExpected, false)
  | some _ => (t, true)

/-- The helper `assert.NoError(t, err)`: fails when `err` is not nil. -/
def assertNoError (t : T) (err : GoError) : T × Bool :=
  let t := { t with entered := t.entered ++ [Assertion.NoError] }
  match err with
  | none => (t, true)
  | some e => (t.Errorf (Failure.unexpectedError e), false)

/-- The helper `assert.Equal(t, expected, actual)` on two strings: fails when
the strings differ. -/
def assertEqual (t : T) (expected actual : String) : T × Bool :=
  let t := { t with entered := t.entered ++ [Assertion.Equal] }
  if expected = actual then (t, true)
  else (t.Errorf (Failure.notEqual expected actual), false)

/-- The helper `require.Error(t, err)`: `assert.Error`, then `t.FailNow` when
it did not hold. -/
def requireError (t : T) (err : GoError) : T × Flow :=
  match assertError t err with
  | (t, true) => (t, Flow.next)
  | (t, false) => t.FailNow

/-- The helper `require.NoError(t, err)`: `assert.NoError`, then `t.FailNow`
when it did not hold. -/
def requireNoError (t : T) (err : GoError) : T × Flow :=
  match assertNoError t err with
  | (t, true) => (t, Flow.next)
  | (t, false) => t.FailNow

/-- The call `Function(arg)`: the environment moves on and the call is
recorded. -/
def call {σ : Type} (Function : FunctionUnderTest σ) (arg : String) (w : World σ) :
    (String × GoError) × World σ :=
  match Function arg w.env with
  | (r, env) => (r, { w with env := env, calls := w.calls ++ [arg] })

/-- The method `t.Run(name, f)`: start a fresh `testing.T` under `name`, run
`f` on it to the end of its goroutine, report the finished subtest, and carry
its failure over to the parent. The subtest is recorded under the name that was
passed; the form in which the framework prints it (the parent prefix, blanks
replaced, a suffix on a repeated name) is not modelled. -/
def T.Run {σ : Type} (t : T) (name : String) (f : T → World σ → T × World σ)
    (w : World σ) : T × World σ :=
  match f (T.fresh name) w with
  | (sub, w) =>
    ({ t with failed := t.failed || sub.failed },
     { w with finished := w.finished ++ [sub] })

/-! ## The template -/

/-- The function literal passed to `t.Run` (template.go, lines 33-46). -/
def subtest {σ : Type} (Function : FunctionUnderTest σ) (tt : TestCase) (t : T)
    (w : World σ) : T × World σ :=
  -- Execution
  match call Function tt.arg w with
  | ((got, err), w) =>
    -- Assertion
    if tt.wantErr then
      match requireError t err with
      | (t, _) => (t, w)
    else
      match requireNoError t err with
      | (t, Flow.goexit) => (t, w)
      | (t, Flow.next) => ((assertEqual t tt.want got).1, w)

/-- The loop `for _, tt := range tests` (template.go, lines 32-47), over an
arbitrary table. -/
def runTests {σ : Type} (Function : FunctionUnderTest σ) :
    List TestCase → T → World σ → T × World σ
  | [], t, w => (t, w)
  | tt :: rest, t, w =>
    match t.Run tt.name (subtest Function tt) w with
    | (t, w) => runTests Function rest t w

/-- The test `TestFunction` (template.go, lines 10-47). -/
def TestFunction {σ : Type} (Function : FunctionUnderTest σ) (t : T) (w : World σ) :
    T × World σ :=
  runTests Function tests t w

/-! ## Observations on a run -/

/-- One scenario: the subtest of `tt`, run on a fresh `testing.T` as `t.Run`
starts it. -/
def scenario {σ : Type} (Function : FunctionUnderTest σ) (tt : TestCase) (w : World σ) :
    T × World σ :=
  subtest Function tt (T.fresh tt.name) w

/-- The report the framework prints for a finished subtest: its name and
whether it passed. -/
def report (sub : T) : String × Bool :=
  (sub.name, !sub.failed)

/-- A world in which nothing has run yet. -/
def World.start {σ : Type} (env : σ) : World σ :=
  { env := env, calls := [], finished := [] }

/-- One execution of the test over the table `l` by the framework: a fresh
`testing.T` for the test and nothing reported yet. -/
def execute {σ : Type} (Function : FunctionUnderTest σ) (l : List TestCase) (env : σ) :
    T × World σ :=
  runTests Function l (T.fresh "TestFunction") (World.start env)

/-- The per-scenario pass/fail outcomes of one execution, in report order. -/
def outcomes {σ : Type} (Function : FunctionUnderTest σ) (l : List TestCase) (env : σ) :
    List Bool :=
  (execute Function l env).2.finished.map (fun sub => !sub.failed)

/-- The overall verdict of one execution: `true` when the test passed. -/
def verdict {σ : Type} (Function : FunctionUnderTest σ) (l : List TestCase) (env : σ) :
    Bool :=
  !(execute Function l env).1.failed

/-- The test executed `n` times in a row over the same table (as by
`go test -count=n`): each execution gets a fresh `testing.T`, and the
environment left by one execution is the one the next starts in. The result
lists, per execution, the outcomes and the verdict. -/
def executions {σ : Type} (Function : FunctionUnderTest σ) (l : List TestCase) :
    Nat → σ → List (List Bool × Bool)
  | 0, _ => []
  | n + 1, env =>
    (outcomes Function l env, verdict Function l env) ::
      executions Function l n (execute Function l env).2.env

/-- The finished subtests that a run over the table `l` adds when it starts in
environment `env`, oldest first: each scenario runs in the environment the
scenarios before it have left. -/
def subtests {σ : Type} (Function : FunctionUnderTest σ) : List TestCase → σ → List T
  | [], _ => []
  | tt :: rest, env =>
    (scenario Function tt (World.start env)).1 ::
      subtests Function rest (Function tt.arg env).2

/-- The environment a run over the table `l` leaves when it starts in `env`. -/
def envAfter {σ : Type} (Function : FunctionUnderTest σ) : List TestCase → σ → σ
  | [], env => env
  | tt :: rest, env => envAfter Function rest (Function tt.arg env).2

/-! ## Sample functions under test -/

/-- A function under test that meets the declared table. -/
def sampleFunction : String → String × GoError := fun arg =>
  if arg = "valid" then ("result", none) else ("", some "invalid input")

/-- A function under test that returns an error together with a result. -/
def failingFunction : String → String × GoError := fun _ =>
  ("partial", some "boom")

/-- A function under test that reads the environment and leaves it unchanged:
it succeeds while the environment holds `0`. -/
def readingFunction : FunctionUnderTest Nat := fun arg env =>
  if env = 0 then (sampleFunction arg, env) else (("", some "locked"), env)

/-! ## The subtest -/

theorem subtest_world {σ : Type} (Function : FunctionUnderTest σ) (tt : TestCase) (t : T)
    (w : World σ) :
    (subtest Function tt t w).2 =
      { w with env := (Function tt.arg w.env).2, calls := w.calls ++ [tt.arg] } := by
  unfold subtest call
  rcases hr : Function tt.arg w.env with ⟨⟨got, err⟩, env⟩
  cases hw : tt.wantErr <;> cases err <;>
    simp [requireError, requireNoError, assertError, assertNoError, T.FailNow]

theorem subtest_name {σ : Type} (Function : FunctionUnderTest σ) (tt : TestCase) (t : T)
    (w : World σ) : (subtest Function tt t w).1.name = t.name := by
  unfold subtest call
  rcases hr : Function tt.arg w.env with ⟨⟨got, err⟩, env⟩
  cases hw : tt.wantErr <;> cases err <;>
    simp [requireError, requireNoError, assertError, assertNoError, assertEqual,
      T.FailNow, T.Errorf]; split <;> rfl

/-- The test state a subtest ends in depends on the world only through what
the call to the function under test returns. -/
theorem subtest_fst {σ τ : Type} (F : FunctionUnderTest σ) (G : FunctionUnderTest τ)
    (tt : TestCase) (t : T) (w : World σ) (v : World τ)
    (h : (F tt.arg w.env).1 = (G tt.arg v.env).1) :
    (subtest F tt t w).1 = (subtest G tt t v).1 := by
  unfold subtest call
  rcases hr : F tt.arg w.env with ⟨⟨got, err⟩, env⟩
  rcases hs : G tt.arg v.env with ⟨⟨got2, err2⟩, env2⟩
  rw [hr, hs] at h
  simp only [Prod.mk.injEq] at h
  obtain ⟨h1, h2⟩ := h
  subst h1 h2
  cases hw : tt.wantErr <;> cases err <;>
    simp [requireError, requireNoError, assertError, assertNoError, T.FailNow]

/-- What a scenario leaves in its `testing.T`, case by case on the flag
`wantErr` and on what the function under test returned. -/
theorem scenario_cases {σ : Type} (Function : FunctionUnderTest σ) (tt : TestCase)
    (w : World σ) :
    (scenario Function tt w).1 =
      match tt.wantErr, (Function tt.arg w.env).1 with
      | true, (_, none) =>
        { name := tt.name, failed := true, output := [Failure.errorExpected],
          entered := [Assertion.Error] }
      | true, (_, some _) =>
        { name := tt.name, failed := false, output := [], entered := [Assertion.Error] }
      | false, (_, some e) =>
        { name := tt.name, failed := true, output := [Failure.unexpectedError e],
          entered := [Assertion.NoError] }
      | false, (got, none) =>
        if tt.want = got then
          { name := tt.name, failed := false, output := [],
            entered := [Assertion.NoError, Assertion.Equal] }
        else
          { name := tt.name, failed := true, output := [Failure.notEqual tt.want got],
            entered := [Assertion.NoError, Assertion.Equal] } := by
  unfold scenario subtest call
  rcases hr : Function tt.arg w.env with ⟨⟨got, err⟩, env⟩
  cases hw : tt.wantErr <;> cases err <;>
    simp [requireError, requireNoError, assertError, assertNoError, assertEqual,
      T.FailNow, T.Errorf, T.fresh]
  split <;> simp

/-! ## The loop -/

/-- The loop in closed form: the parent fails when it had failed or a subtest
fails, every argument is passed to the function under test in table order, and
every subtest is reported in table order. -/
theorem runTests_eq {σ : Type} (Function : FunctionUnderTest σ) (l : List TestCase) :
    ∀ (t : T) (w : World σ),
      runTests Function l t w =
        ({ t with failed := t.failed || (subtests Function l w.env).any (fun sub => sub.failed) },
         { env := envAfter Function l w.env,
           calls := w.calls ++ l.map (fun tt => tt.arg),
           finished := w.finished ++ subtests Function l w.env }) := by
  induction l with
  | nil => intro t w; simp [runTests, subtests, envAfter]
  | cons tt rest ih =>
    intro t w
    have hfst : (subtest Function tt (T.fresh tt.name) w).1
        = (scenario Function tt (World.start w.env)).1 :=
      subtest_fst Function Function tt (T.fresh tt.name) w (World.start w.env) rfl
    have hsnd := subtest_world Function tt (T.fresh tt.name) w
    rcases hs : subtest Function tt (T.fresh tt.name) w with ⟨sub, w1⟩
    rw [hs] at hfst hsnd
    simp only at hfst hsnd
    subst hfst hsnd
    simp only [runTests, T.Run, hs, ih, subtests, envAfter, List.any_cons, List.map_cons,
      List.append_assoc, List.singleton_append, Bool.or_assoc]

theorem subtests_name {σ : Type} (Function : FunctionUnderTest σ) (l : List TestCase) :
    ∀ env : σ, (subtests Function l env).map (fun sub => sub.name) = l.map (fun tt => tt.name) := by
  induction l with
  | nil => intro env; rfl
  | cons tt rest ih =>
    intro env
    simp only [subtests, List.map_cons, ih, scenario, subtest_name, T.fresh]

theorem subtests_length {σ : Type} (Function : FunctionUnderTest σ) (l : List TestCase) :
    ∀ env : σ, (subtests Function l env).length = l.length := by
  induction l with
  | nil => intro env; rfl
  | cons tt rest ih => intro env; simp only [subtests, List.length_cons, ih]

/-- For a function under test that does not touch the environment, each
finished subtest is the scenario of its own record. -/
theorem subtests_of_free {σ : Type} (Function : FunctionUnderTest σ)
    (hfree : ∀ arg env, (Function arg env).2 = env) (l : List TestCase) (env : σ) :
    subtests Function l env = l.map (fun tt => (scenario Function tt (World.start env)).1) := by
  induction l with
  | nil => rfl
  | cons tt rest ih => simp only [subtests, List.map_cons, hfree, ih]

theorem envAfter_of_free {σ : Type} (Function : FunctionUnderTest σ)
    (hfree : ∀ arg env, (Function arg env).2 = env) (l : List TestCase) (env : σ) :
    envAfter Function l env = env := by
  induction l with
  | nil => rfl
  | cons tt rest ih => simp only [envAfter, hfree, ih]

/-- Whether the scenario of a record passes, for a function under test that is a
plain map: it meets the expectation the record declares. -/
theorem scenario_pure_failed {σ : Type} (g : String → String × GoError) (tt : TestCase)
    (w : World σ) :
    (scenario (pureFunction g) tt w).1.failed = false ↔
      (tt.wantErr = false → g tt.arg = (tt.want, none)) ∧
      (tt.wantErr = true → (g tt.arg).2 ≠ none) := by
  rw [scenario_cases]
  simp only [pureFunction]
  rcases hg : g tt.arg with ⟨got, err⟩
  cases hw : tt.wantErr <;> cases err <;> simp
  · split
    · next h => simp [h]
    · next h => simpa using fun h2 : got = tt.want => h h2.symm

theorem subtests_append {σ : Type} (Function : FunctionUnderTest σ) (l1 l2 : List TestCase) :
    ∀ env : σ, subtests Function (l1 ++ l2) env =
      subtests Function l1 env ++ subtests Function l2 (envAfter Function l1 env) := by
  induction l1 with
  | nil => intro env; rfl
  | cons tt rest ih =>
    intro env
    rw [List.cons_append]
    simp only [subtests, envAfter, ih, List.cons_append]

/-- One step of the loop: `t.Run` reports the scenario of the record. -/
theorem Run_subtest {σ : Type} (Function : FunctionUnderTest σ) (tt : TestCase) (t : T)
    (w : World σ) :
    (t.Run tt.name (subtest Function tt) w).2.finished =
      w.finished ++ [(scenario Function tt w).1] := by
  simp only [T.Run, scenario, subtest_world]

/-- The outcomes of a run for a function under test that is a plain map: each
record is judged on its own. -/
theorem outcomes_pure {σ : Type} (g : String → String × GoError) (l : List TestCase)
    (env : σ) :
    outcomes (pureFunction g) l env =
      l.map (fun tt => !(scenario (pureFunction g) tt (World.start env)).1.failed) := by
  have hfree : ∀ arg (e : σ), (pureFunction g arg e).2 = e := fun _ _ => rfl
  simp only [outcomes, execute, runTests_eq, World.start, List.nil_append,
    subtests_of_free _ hfree, List.map_map, Function.comp_def]

/-! ## The claims -/

/-- C1. Assertion policy, no-error branch. For every function under test and
every test case with `wantErr = false`, the scenario that `t.Run` reports
passes if and only if the call returns a nil error and a result equal to
`want`; it is reported failed when the error is non-nil, and when the error is
nil but the result differs from `want`. -/
theorem C1_no_error_branch {σ : Type} (Function : FunctionUnderTest σ) (tt : TestCase)
    (t : T) (w : World σ) (h : tt.wantErr = false) :
    (t.Run tt.name (subtest Function tt) w).2.finished =
        w.finished ++ [(scenario Function tt w).1] ∧
    (report (scenario Function tt w).1 = (tt.name, true) ↔
        (Function tt.arg w.env).1 = (tt.want, none)) ∧
    ((Function tt.arg w.env).1.2 ≠ none →
        report (scenario Function tt w).1 = (tt.name, false)) ∧
    ((Function tt.arg w.env).1.2 = none → (Function tt.arg w.env).1.1 ≠ tt.want →
        report (scenario Function tt w).1 = (tt.name, false)) := by
  refine ⟨Run_subtest Function tt t w, ?_⟩
  rw [scenario_cases, h]
  rcases hr : (Function tt.arg w.env).1 with ⟨got, err⟩
  cases err with
  | some e => simp [report]
  | none =>
    by_cases hg : tt.want = got
    · simp [report, hg]
    · have hg2 : ¬ got = tt.want := fun h2 => hg h2.symm
      simp [report, hg, hg2]

theorem C1_no_error_branch_witness :
    ({ name := "success case", arg := "valid", want := "result", wantErr := false } :
        TestCase).wantErr = false ∧
    report (scenario (pureFunction sampleFunction)
        { name := "success case", arg := "valid", want := "result", wantErr := false }
        (World.start ())).1 = ("success case", true) ∧
    report (scenario (pureFunction failingFunction)
        { name := "success case", arg := "valid", want := "result", wantErr := false }
        (World.start ())).1 = ("success case", false) :=
  ⟨rfl,
   (C1_no_error_branch (pureFunction sampleFunction)
      { name := "success case", arg := "valid", want := "result", wantErr := false }
      (T.fresh "TestFunction") (World.start ()) rfl).2.1.mpr (by decide),
   (C1_no_error_branch (pureFunction failingFunction)
      { name := "success case", arg := "valid", want := "result", wantErr := false }
      (T.fresh "TestFunction") (World.start ()) rfl).2.2.1 (by decide)⟩

/-- C2. Assertion policy, expected-error branch. For every function under test
and every test case with `wantErr = true`, the scenario passes if and only if
the call returns a non-nil error. Only `assert.Error` is entered, so nothing
is asserted on the result: the outcome is the same for every `want` and for
every function that returns a nil error exactly when this one does, whatever
result string comes with it. -/
theorem C2_expected_error_branch {σ : Type} (Function : FunctionUnderTest σ)
    (tt : TestCase) (w : World σ) (h : tt.wantErr = true) :
    (report (scenario Function tt w).1 = (tt.name, true) ↔
        (Function tt.arg w.env).1.2 ≠ none) ∧
    (report (scenario Function tt w).1 = (tt.name, false) ↔
        (Function tt.arg w.env).1.2 = none) ∧
    (scenario Function tt w).1.entered = [Assertion.Error] ∧
    ∀ {τ : Type} (G : FunctionUnderTest τ) (want : String) (v : World τ),
      ((G tt.arg v.env).1.2 = none ↔ (Function tt.arg w.env).1.2 = none) →
      report (scenario G { tt with want := want } v).1 = report (scenario Function tt w).1 := by
  have key : ∀ {τ : Type} (G : FunctionUnderTest τ) (want : String) (v : World τ),
      (scenario G { tt with want := want } v).1 =
        match (G tt.arg v.env).1.2 with
        | none => { name := tt.name, failed := true, output := [Failure.errorExpected],
                    entered := [Assertion.Error] }
        | some _ => { name := tt.name, failed := false, output := [],
                      entered := [Assertion.Error] } := by
    intro τ G want v
    rw [scenario_cases]
    simp only [h]
    rcases (G tt.arg v.env).1 with ⟨got, err⟩
    cases err <;> rfl
  have key0 := key Function tt.want w
  have htt : ({ tt with want := tt.want } : TestCase) = tt := rfl
  rw [htt] at key0
  refine ⟨?_, ?_, ?_, ?_⟩
  · rw [key0]; cases (Function tt.arg w.env).1.2 <;> simp [report]
  · rw [key0]; cases (Function tt.arg w.env).1.2 <;> simp [report]
  · rw [key0]; cases (Function tt.arg w.env).1.2 <;> rfl
  · intro τ G want v hiff
    rw [key0, key G want v]
    rcases hG : (G tt.arg v.env).1.2 with _ | a <;>
      rcases hF : (Function tt.arg w.env).1.2 with _ | b
    · rfl
    · have hn := hiff.mp hG
      rw [hF] at hn
      cases hn
    · have hn := hiff.mpr hF
      rw [hG] at hn
      cases hn
    · rfl

theorem C2_expected_error_branch_witness :
    ({ name := "error case", arg := "invalid", want := "", wantErr := true } :
        TestCase).wantErr = true ∧
    report (scenario (pureFunction sampleFunction)
        { name := "error case", arg := "invalid", want := "", wantErr := true }
        (World.start ())).1 = ("error case", true) ∧
    report (scenario (pureFunction failingFunction)
        { name := "error case", arg := "invalid", want := "anything", wantErr := true }
        (World.start ())).1 = ("error case", true) :=
  have hw := C2_expected_error_branch (pureFunction sampleFunction)
      { name := "error case", arg := "invalid", want := "", wantErr := true }
      (World.start ()) rfl
  ⟨rfl, hw.1.mpr (by decide),
   (hw.2.2.2 (pureFunction failingFunction) "anything" (World.start ()) (by decide)).trans
     (hw.1.mpr (by decide))⟩

/-- C3. Whole-run verdict. For every function under test and every table, the
enclosing test is marked failed exactly when at least one reported scenario
failed; and for a function under test `g` from strings to results, the test
passes if and only if every record with `wantErr = false` has
`g arg = (want, nil)` and every record with `wantErr = true` has `g arg`
return a non-nil error. -/
theorem C3_whole_run_verdict {σ : Type} (Function : FunctionUnderTest σ)
    (g : String → String × GoError) (l : List TestCase) (env : σ) :
    ((execute Function l env).1.failed = true ↔
        ∃ sub ∈ (execute Function l env).2.finished, sub.failed = true) ∧
    (verdict (pureFunction g) l env = true ↔
        ∀ tt ∈ l, (tt.wantErr = false → g tt.arg = (tt.want, none)) ∧
          (tt.wantErr = true → (g tt.arg).2 ≠ none)) := by
  constructor
  · simp only [execute, runTests_eq, World.start, T.fresh, Bool.false_or, List.nil_append,
      List.any_eq_true]
  · have hfree : ∀ arg (e : σ), (pureFunction g arg e).2 = e := fun _ _ => rfl
    simp only [verdict, execute, runTests_eq, World.start, T.fresh, Bool.false_or,
      subtests_of_free _ hfree, Bool.not_eq_true', List.any_eq_false, List.mem_map,
      Bool.not_eq_true, forall_exists_index, and_imp, forall_apply_eq_imp_iff₂]
    constructor
    · intro hall tt htt
      exact (scenario_pure_failed g tt _).mp (hall tt htt)
    · intro hall tt htt
      exact (scenario_pure_failed g tt _).mpr (hall tt htt)

theorem C3_whole_run_verdict_witness :
    verdict (pureFunction sampleFunction) tests () = true ∧
    (execute (pureFunction failingFunction) tests ()).1.failed = true :=
  ⟨(C3_whole_run_verdict (pureFunction sampleFunction) sampleFunction tests ()).2.mpr
      (by decide),
   (C3_whole_run_verdict (pureFunction failingFunction) failingFunction tests ()).1.mpr
      ⟨(scenario (pureFunction failingFunction)
          { name := "success case", arg := "valid", want := "result", wantErr := false }
          (World.start ())).1, by decide, by decide⟩⟩

/-- C4. Subtest isolation. For every function under test and every table, the
run adds exactly one report per test case, in declaration order and tagged
with the name of the case. What the run leaves in the world does not depend on
the failed flag of the parent, and the case that follows any prefix `l1` of the
table is run and reported at its own position, in the world the prefix left,
whatever the outcomes of the cases in `l1` were. -/
theorem C4_subtest_isolation {σ : Type} (Function : FunctionUnderTest σ)
    (l : List TestCase) (t : T) (w : World σ) :
    (runTests Function l t w).2.finished.length = w.finished.length + l.length ∧
    (runTests Function l t w).2.finished.map (fun sub => (report sub).1) =
        w.finished.map (fun sub => (report sub).1) ++ l.map (fun tt => tt.name) ∧
    (∀ t2 : T, (runTests Function l t2 w).2 = (runTests Function l t w).2) ∧
    (∀ (l1 l2 : List TestCase) (tt : TestCase), l = l1 ++ tt :: l2 →
        (runTests Function l t w).2.finished[w.finished.length + l1.length]? =
          some (scenario Function tt (runTests Function l1 t w).2).1) := by
  refine ⟨?_, ?_, ?_, ?_⟩
  · simp only [runTests_eq, List.length_append, subtests_length]
  · simp only [runTests_eq, List.map_append, report]
    rw [subtests_name]
  · intro t2
    simp only [runTests_eq]
  · intro l1 l2 tt hl
    subst hl
    have hsc : (scenario Function tt (runTests Function l1 t w).2).1 =
        (scenario Function tt (World.start (envAfter Function l1 w.env))).1 := by
      unfold scenario
      apply subtest_fst
      simp only [runTests_eq, World.start]
    rw [hsc]
    simp only [runTests_eq, subtests_append, subtests]
    rw [List.getElem?_append_right (Nat.le_add_right _ _), Nat.add_sub_cancel_left,
      List.getElem?_append_right (by rw [subtests_length])]
    simp [subtests_length]

theorem C4_subtest_isolation_witness :
    (execute (pureFunction failingFunction) tests ()).2.finished.map (fun sub => (report sub).1)
        = ["success case", "error case"] ∧
    (execute (pureFunction failingFunction) tests ()).2.finished[1]? =
        some (scenario (pureFunction failingFunction)
          { name := "error case", arg := "invalid", want := "", wantErr := true }
          (runTests (pureFunction failingFunction)
            [{ name := "success case", arg := "valid", want := "result", wantErr := false }]
            (T.fresh "TestFunction") (World.start ())).2).1 :=
  have h := C4_subtest_isolation (pureFunction failingFunction) tests
    (T.fresh "TestFunction") (World.start ())
  ⟨h.2.1, h.2.2.2 [{ name := "success case", arg := "valid", want := "result", wantErr := false }]
    [] { name := "error case", arg := "invalid", want := "", wantErr := true } rfl⟩

/-- C5. Concrete scenarios. The declared table consists of exactly the two
records `success case` and `error case`, in this order; hence `TestFunction`
passes if and only if the call on `"valid"` returns `("result", nil)` and the
call on `"invalid"` that follows it returns a non-nil error. For a function
under test `g` from strings to results: if and only if
`g "valid" = ("result", nil)` and `g "invalid"` returns a non-nil error. -/
theorem C5_concrete_scenarios {σ : Type} (Function : FunctionUnderTest σ)
    (g : String → String × GoError) (env : σ) :
    tests = [ { name := "success case", arg := "valid", want := "result", wantErr := false },
              { name := "error case", arg := "invalid", want := "", wantErr := true } ] ∧
    ((TestFunction Function (T.fresh "TestFunction") (World.start env)).1.failed = false ↔
        (Function "valid" env).1 = ("result", none) ∧
        (Function "invalid" (Function "valid" env).2).1.2 ≠ none) ∧
    ((TestFunction (pureFunction g) (T.fresh "TestFunction") (World.start env)).1.failed = false ↔
        g "valid" = ("result", none) ∧ (g "invalid").2 ≠ none) := by
  have main : ∀ F : FunctionUnderTest σ,
      ((TestFunction F (T.fresh "TestFunction") (World.start env)).1.failed = false ↔
        (F "valid" env).1 = ("result", none) ∧ (F "invalid" (F "valid" env).2).1.2 ≠ none) := by
    intro F
    simp only [TestFunction, tests, runTests_eq, subtests, scenario_cases, World.start, T.fresh,
      List.any_cons, List.any_nil, Bool.or_false, Bool.false_or, Bool.or_eq_false_iff]
    rcases h1 : (F "valid" env).1 with ⟨got1, err1⟩
    rcases h2 : (F "invalid" (F "valid" env).2).1 with ⟨got2, err2⟩
    cases err1 <;> cases err2 <;> simp
    split
    · next h => simp [h]
    · next h => simpa using fun h2 : got1 = "result" => h h2.symm
  exact ⟨rfl, main Function, main (pureFunction g)⟩

theorem C5_concrete_scenarios_witness :
    (TestFunction (pureFunction sampleFunction) (T.fresh "TestFunction")
      (World.start ())).1.failed = false :=
  (C5_concrete_scenarios (pureFunction sampleFunction) sampleFunction ()).2.1.mpr (by decide)

/-- C6. Scenario isolation under reordering. For every function under test `g`
from strings to results and every permutation `π` of the positions of the
table, the run over the permuted table yields one outcome per case, and the
outcome at position `i` is the outcome the original run gives at position
`π i`, the position the case came from. The outcome of a case is the one it
gets when it is run alone. -/
theorem C6_reordering {σ : Type} (g : String → String × GoError) (l : List TestCase)
    (π : Equiv.Perm (Fin l.length)) (env : σ) :
    (outcomes (pureFunction g) (List.ofFn (fun j => l.get (π j))) env).length = l.length ∧
    (∀ i : Fin l.length,
      (outcomes (pureFunction g) (List.ofFn (fun j => l.get (π j))) env)[i.val]? =
        (outcomes (pureFunction g) l env)[(π i).val]?) ∧
    (∀ i : Fin l.length,
      (outcomes (pureFunction g) l env)[i.val]? =
        (outcomes (pureFunction g) [l.get i] env)[(0 : Nat)]?) := by
  refine ⟨?_, ?_, ?_⟩
  · simp only [outcomes_pure, List.length_map, List.length_ofFn]
  · intro i
    simp only [outcomes_pure, List.getElem?_map, List.getElem?_ofFn, List.ofFnNthVal,
      i.isLt, (π i).isLt, dite_true, Option.map_some', List.getElem?_eq_getElem,
      Fin.eta, List.get_eq_getElem]
  · intro i
    simp only [outcomes_pure, List.getElem?_map, i.isLt, List.getElem?_eq_getElem,
      Option.map_some', List.get_eq_getElem, List.map_cons, List.map_nil,
      List.getElem?_cons_zero]

theorem C6_reordering_witness :
    (outcomes (pureFunction failingFunction)
        (List.ofFn (fun j => tests.get
          ((Equiv.swap (⟨0, by decide⟩ : Fin tests.length) ⟨1, by decide⟩) j))) ())[(0 : Nat)]? =
      (outcomes (pureFunction failingFunction) tests ())[(1 : Nat)]? :=
  (C6_reordering failingFunction tests
    (Equiv.swap (⟨0, by decide⟩ : Fin tests.length) ⟨1, by decide⟩) ()).2.1 ⟨0, by decide⟩

/-- C7. Idempotence of the run. For every function under test that leaves the
environment as it found it (what it returns is then determined by its argument
and that environment), and every table, executing the test any number of times
in a row yields, each time, the list of per-scenario outcomes and the overall
verdict of the first execution. -/
theorem C7_idempotence {σ : Type} (Function : FunctionUnderTest σ)
    (hfree : ∀ arg env, (Function arg env).2 = env) (l : List TestCase) (n : Nat) (env : σ) :
    executions Function l n env =
      List.replicate n (outcomes Function l env, verdict Function l env) := by
  induction n with
  | zero => rfl
  | succ n ih =>
    have henv : (execute Function l env).2.env = env := by
      simp only [execute, runTests_eq, World.start, envAfter_of_free Function hfree]
    simp only [executions, henv, ih, List.replicate_succ]

theorem C7_idempotence_witness :
    (∀ arg env, (readingFunction arg env).2 = env) ∧
    executions readingFunction tests 3 0 =
      [([true, true], true), ([true, true], true), ([true, true], true)] ∧
    executions readingFunction tests 2 1 =
      [([false, true], false), ([false, true], false)] :=
  have hfree : ∀ arg env, (readingFunction arg env).2 = env := by
    intro arg env
    unfold readingFunction
    split <;> rfl
  ⟨hfree,
   (C7_idempotence readingFunction hfree tests 3 0).trans (by decide),
   (C7_idempotence readingFunction hfree tests 2 1).trans (by decide)⟩

/-- C8. Data-model invariants of the declared table. Every record of `tests`
with `wantErr = true` has `want` equal to the empty string, and the names of
the records are pairwise distinct. -/
theorem C8_table_invariants :
    (∀ tt ∈ tests, tt.wantErr = true → tt.want = "") ∧
    (tests.map (fun tt => tt.name)).Nodup := by
  decide

/-- C9. Fail-fast inside a scenario. For every function under test and every
test case, the scenario logs at most one assertion failure. When
`wantErr = false` and the call returns a non-nil error, the failure logged is
the unexpected error alone and `assert.Equal` is not entered, whatever the
result and `want` are. -/
theorem C9_fail_fast {σ : Type} (Function : FunctionUnderTest σ) (tt : TestCase)
    (w : World σ) :
    (scenario Function tt w).1.output.length ≤ 1 ∧
    (tt.wantErr = false → ∀ e : String, (Function tt.arg w.env).1.2 = some e →
      (scenario Function tt w).1.output = [Failure.unexpectedError e] ∧
      (scenario Function tt w).1.entered = [Assertion.NoError] ∧
      (scenario Function tt w).1.failed = true) := by
  rw [scenario_cases]
  rcases hr : (Function tt.arg w.env).1 with ⟨got, err⟩
  cases hw : tt.wantErr <;> cases err <;> simp
  split <;> simp

theorem C9_fail_fast_witness :
    (scenario (pureFunction failingFunction)
        { name := "success case", arg := "valid", want := "result", wantErr := false }
        (World.start ())).1.output = [Failure.unexpectedError "boom"] ∧
    (scenario (pureFunction failingFunction)
        { name := "success case", arg := "valid", want := "result", wantErr := false }
        (World.start ())).1.entered = [Assertion.NoError] :=
  have h := (C9_fail_fast (pureFunction failingFunction)
    { name := "success case", arg := "valid", want := "result", wantErr := false }
    (World.start ())).2 rfl "boom" rfl
  ⟨h.1, h.2.1⟩

/-- C10. The function under test is invoked exactly once per test case, with
the `arg` of the case. For every function under test and every table, the
arguments passed to `Function` during a run are the `arg` fields of the
records in declaration order, after whatever calls were made before the run. -/
theorem C10_one_call_per_case {σ : Type} (Function : FunctionUnderTest σ)
    (l : List TestCase) (t : T) (w : World σ) (env : σ) :
    (runTests Function l t w).2.calls = w.calls ++ l.map (fun tt => tt.arg) ∧
    (execute Function l env).2.calls = l.map (fun tt => tt.arg) ∧
    (TestFunction Function t (World.start env)).2.calls = ["valid", "invalid"] := by
  simp only [execute, TestFunction, runTests_eq, World.start, List.nil_append, tests,
    List.map_cons, List.map_nil, and_self]

end Template
